import Mathlib

/-!
Verification development for the pyreto color tool.

The program's core is `palette_generator.py` (HSV scheme generation built on
CPython's `colorsys` module) and `src/color_utils.py` (multi-strategy color
search).  The embedding below models:

* Python strings as `List Char` (ASCII scope: `str.lower`, `str.strip` and
  `int(s, 16)` are modelled for ASCII text, which covers every string the
  program manipulates);
* CPython floats as exact rationals `ℚ` (the algorithms use only +, -, *, /,
  `%`, `int()` truncation and comparisons, all exact on the inputs at issue;
  float literals such as `0.083` are taken at their decimal value);
* raised exceptions as `Except`/`Option` failure values
  (`ValueError`/`ZeroDivisionError` from parsing and division).

`color_distance` in the source returns `math.sqrt(w)`; the square root is
irrational, so the model keeps the squared distance `w` and compares it with
the squared threshold (`sqrt` is monotone on nonnegatives, so
`sqrt w <= 0.5` exactly when `w <= 0.25`); the sort key `sqrt w` induces the
same order as `w`.
-/

set_option maxRecDepth 40000

namespace Pyreto

/-- ASCII whitespace stripped by Python's `str.strip()` / `int()`. -/
def isPySpace (c : Char) : Bool :=
  c.toNat = 32 || c.toNat = 9 || c.toNat = 10 || c.toNat = 13 || c.toNat = 11 || c.toNat = 12

/-- `str.lower()` on one ASCII character. -/
def pyLowerChar (c : Char) : Char :=
  if 65 ≤ c.toNat ∧ c.toNat ≤ 90 then Char.ofNat (c.toNat + 32) else c

/-- `str.lower()` (ASCII scope). -/
def pyLower (l : List Char) : List Char := l.map pyLowerChar

/-- `str.strip()` with no argument: remove leading and trailing whitespace. -/
def pyStripWs (l : List Char) : List Char :=
  ((l.dropWhile isPySpace).reverse.dropWhile isPySpace).reverse

/-- `str.lstrip('#')`: remove every leading `'#'`. -/
def stripHash (l : List Char) : List Char := l.dropWhile (fun c => c = '#')

/-- Python slice `s[i:i+2]` (clipped at the end of the string). -/
def slice2 (l : List Char) (i : ℕ) : List Char := (l.drop i).take 2

/-- `needle` is a prefix of `hay` (helper for Python's `in`). -/
def strBegins : List Char → List Char → Bool
  | [], _ => true
  | _ :: _, [] => false
  | a :: as, b :: bs => a = b && strBegins as bs

/-- Python's substring test `needle in hay`. -/
def strHas (hay needle : List Char) : Bool :=
  match hay with
  | [] => strBegins needle []
  | c :: t => strBegins needle (c :: t) || strHas t needle

/-- Value of one hexadecimal digit character (`0-9`, `a-f`, `A-F`). -/
def hexVal (c : Char) : Option ℕ :=
  if 48 ≤ c.toNat ∧ c.toNat ≤ 57 then some (c.toNat - 48)
  else if 97 ≤ c.toNat ∧ c.toNat ≤ 102 then some (c.toNat - 87)
  else if 65 ≤ c.toNat ∧ c.toNat ≤ 70 then some (c.toNat - 55)
  else none

/-- Digit run of CPython `int(s, 16)` after the first digit: single
underscores are allowed between digits only. -/
def hexDigitsGo : ℕ → List Char → Option ℕ
  | acc, [] => some acc
  | acc, c :: rest =>
    if c = '_' then
      match rest with
      | [] => none
      | c2 :: rest2 =>
        match hexVal c2 with
        | some d => hexDigitsGo (16 * acc + d) rest2
        | none => none
    else
      match hexVal c with
      | some d => hexDigitsGo (16 * acc + d) rest
      | none => none

/-- Nonempty digit run of CPython `int(s, 16)`: must start with a digit. -/
def hexDigitsParse : List Char → Option ℕ
  | [] => none
  | c :: rest =>
    match hexVal c with
    | some d => hexDigitsGo d rest
    | none => none

/-- CPython `int(s, 16)` (ASCII scope): strip whitespace, optional sign,
optional `0x`/`0X` prefix (with one underscore allowed right after it), then
a nonempty digit run; `none` models the raised `ValueError`. -/
def pyIntHex (s : List Char) : Option ℤ :=
  let t0 := pyStripWs s
  let p : ℤ × List Char :=
    match t0 with
    | [] => (1, [])
    | c :: r => if c = '+' then (1, r) else if c = '-' then (-1, r) else (1, c :: r)
  let t2 : List Char :=
    match p.2 with
    | c0 :: c1 :: r =>
      if c0 = '0' ∧ (c1 = 'x' ∨ c1 = 'X') then
        match r with
        | '_' :: r2 => r2
        | _ => r
      else c0 :: c1 :: r
    | t => t
  match hexDigitsParse t2 with
  | some n => some (p.1 * (n : ℤ))
  | none => none

/-- Python `int()` on a float: truncation toward zero. -/
def pyint (x : ℚ) : ℤ := if 0 ≤ x then ⌊x⌋ else ⌈x⌉

/-- Python `%` on floats, for the positive moduli used by the program:
`x % y = x - y*⌊x/y⌋`, in `[0, y)`. -/
def pymod (x y : ℚ) : ℚ := x - y * ⌊x / y⌋

/-- Lowercase hexadecimal digit character for a value below 16. -/
def toHexDigit (n : ℕ) : Char :=
  if n < 10 then Char.ofNat (48 + n) else Char.ofNat (87 + n)

/-- Fuelled base-16 digit expansion (the fuel `n+1` always suffices). -/
def natToHexAux : ℕ → ℕ → List Char
  | 0, _ => []
  | fuel + 1, n =>
    if n < 16 then [toHexDigit n]
    else natToHexAux fuel (n / 16) ++ [toHexDigit (n % 16)]

/-- Lowercase base-16 digit string of a natural number (no leading zeros). -/
def natToHex (n : ℕ) : List Char := natToHexAux (n + 1) n

/-- Python format `"{:02x}".format(n)`: lowercase hex, zero-padded to width 2
(the sign of a negative number counts toward the width). -/
def pyHex02 (n : ℤ) : List Char :=
  if 0 ≤ n then
    let d := natToHex n.toNat
    List.replicate (2 - d.length) '0' ++ d
  else
    let d := natToHex (-n).toNat
    '-' :: (List.replicate (1 - d.length) '0' ++ d)

/-- Exceptions raised by `palette_generator.hex_to_hsv`. -/
inductive PyError where
  | valueError
  | zeroDivisionError
deriving DecidableEq

instance {ε α : Type} [DecidableEq ε] [DecidableEq α] : DecidableEq (Except ε α) := fun a b =>
  match a, b with
  | .ok x, .ok y => if h : x = y then isTrue (by rw [h]) else isFalse (by simp [h])
  | .error x, .error y => if h : x = y then isTrue (by rw [h]) else isFalse (by simp [h])
  | .ok _, .error _ => isFalse (by simp)
  | .error _, .ok _ => isFalse (by simp)

namespace PaletteGen

/-- `colorsys.rgb_to_hsv(r, g, b)` from CPython, on exact rationals.
`zeroDivisionError` models the division `rangec / maxc` when `maxc = 0`
with `minc ≠ maxc` (reachable only through sign quirks of `int(s, 16)`). -/
def rgb_to_hsv (r g b : ℚ) : Except PyError (ℚ × ℚ × ℚ) :=
  let maxc := max r (max g b)
  let minc := min r (min g b)
  let rangec := maxc - minc
  let v := maxc
  if minc = maxc then .ok (0, 0, v)
  else if maxc = 0 then .error .zeroDivisionError
  else
    let s := rangec / maxc
    let rc := (maxc - r) / rangec
    let gc := (maxc - g) / rangec
    let bc := (maxc - b) / rangec
    let h := if r = maxc then bc - gc
      else if g = maxc then 2 + rc - bc
      else 4 + gc - rc
    .ok (pymod (h / 6) 1, s, v)

/-- The branch table of `colorsys.hsv_to_rgb` after `i = int(h*6); f = h*6-i;
i = i % 6` (the source computes `p`, `q`, `t` and then selects on `i`). -/
def hsvBranch (i : ℤ) (f s v : ℚ) : ℚ × ℚ × ℚ :=
  let p := v * (1 - s)
  let q := v * (1 - s * f)
  let t := v * (1 - s * (1 - f))
  if i = 0 then (v, t, p)
  else if i = 1 then (q, v, p)
  else if i = 2 then (p, v, t)
  else if i = 3 then (p, q, v)
  else if i = 4 then (t, p, v)
  else (v, p, q)

/-- `colorsys.hsv_to_rgb(h, s, v)` from CPython, on exact rationals. -/
def hsv_to_rgb (h s v : ℚ) : ℚ × ℚ × ℚ :=
  if s = 0 then (v, v, v)
  else hsvBranch (pyint (h * 6) % 6) (h * 6 - (pyint (h * 6) : ℚ)) s v

/-- `palette_generator.hex_to_hsv`: strip leading `'#'`, parse the three
2-character slices with `int(_, 16)`, divide by 255, convert to HSV.
A failing slice parse is the raised `ValueError`. -/
def hex_to_hsv (l : List Char) : Except PyError (ℚ × ℚ × ℚ) :=
  let t := stripHash l
  match pyIntHex (slice2 t 0), pyIntHex (slice2 t 2), pyIntHex (slice2 t 4) with
  | some r, some g, some b => rgb_to_hsv ((r : ℚ) / 255) ((g : ℚ) / 255) ((b : ℚ) / 255)
  | _, _, _ => .error .valueError

/-- `palette_generator.hsv_to_hex`: convert to RGB and format as
`f"#{int(r*255):02x}{int(g*255):02x}{int(b*255):02x}"`. -/
def hsv_to_hex (h s v : ℚ) : List Char :=
  let c := hsv_to_rgb h s v
  '#' :: (pyHex02 (pyint (c.1 * 255)) ++ pyHex02 (pyint (c.2.1 * 255)) ++ pyHex02 (pyint (c.2.2 * 255)))

/-- `generate_analogous_colors(base_color, num_colors)`; the source default is
`num_colors = 5`.  Counts are modelled as naturals (matching `range`). -/
def generate_analogous_colors (base : List Char) (num_colors : ℕ) :
    Except PyError (List (List Char)) :=
  match hex_to_hsv base with
  | .error e => .error e
  | .ok (h, s, v) =>
    .ok ((List.range num_colors).map fun i : ℕ =>
      hsv_to_hex (pymod (h + ((i : ℤ) - ((num_colors / 2 : ℕ) : ℤ)) * (83 / 1000)) 1) s v)

/-- `generate_complementary_colors(base_color)`. -/
def generate_complementary_colors (base : List Char) : Except PyError (List (List Char)) :=
  match hex_to_hsv base with
  | .error e => .error e
  | .ok (h, s, v) => .ok [base, hsv_to_hex (pymod (h + 1 / 2) 1) s v]

/-- `generate_triadic_colors(base_color)`. -/
def generate_triadic_colors (base : List Char) : Except PyError (List (List Char)) :=
  match hex_to_hsv base with
  | .error e => .error e
  | .ok (h, s, v) =>
    .ok [base, hsv_to_hex (pymod (h + 333 / 1000) 1) s v,
      hsv_to_hex (pymod (h + 666 / 1000) 1) s v]

/-- `generate_split_complementary_colors(base_color)`. -/
def generate_split_complementary_colors (base : List Char) :
    Except PyError (List (List Char)) :=
  match hex_to_hsv base with
  | .error e => .error e
  | .ok (h, s, v) =>
    .ok [base, hsv_to_hex (pymod (h + 417 / 1000) 1) s v,
      hsv_to_hex (pymod (h + 583 / 1000) 1) s v]

/-- `generate_tetradic_colors(base_color)`. -/
def generate_tetradic_colors (base : List Char) : Except PyError (List (List Char)) :=
  match hex_to_hsv base with
  | .error e => .error e
  | .ok (h, s, v) =>
    .ok [base, hsv_to_hex (pymod (h + 1 / 4) 1) s v,
      hsv_to_hex (pymod (h + 1 / 2) 1) s v,
      hsv_to_hex (pymod (h + 3 / 4) 1) s v]

end PaletteGen

namespace ColorUtils

/-- The static `COLOR_NAMES` table of `src/color_utils.py`, in insertion
order. -/
def COLOR_NAMES : List (List Char × List Char) := [
  ("FF0000".data, "red".data),
  ("00FF00".data, "green".data),
  ("0000FF".data, "blue".data),
  ("FFFF00".data, "yellow".data),
  ("FF00FF".data, "magenta".data),
  ("00FFFF".data, "cyan".data),
  ("000000".data, "black".data),
  ("FFFFFF".data, "white".data),
  ("808080".data, "gray".data),
  ("800000".data, "maroon".data),
  ("808000".data, "olive".data),
  ("008000".data, "dark green".data),
  ("800080".data, "purple".data),
  ("008080".data, "teal".data),
  ("000080".data, "navy".data),
  ("FFA500".data, "orange".data),
  ("A52A2A".data, "brown".data),
  ("FFC0CB".data, "pink".data),
  ("FFD700".data, "gold".data),
  ("E6E6FA".data, "lavender".data)]

/-- `color_utils.hex_to_rgb`: strip leading `'#'` and parse the three
2-character slices with `int(_, 16)`; `none` models the raised `ValueError`. -/
def hex_to_rgb (s : List Char) : Option (ℤ × ℤ × ℤ) :=
  let t := stripHash s
  match pyIntHex (slice2 t 0), pyIntHex (slice2 t 2), pyIntHex (slice2 t 4) with
  | some r, some g, some b => some (r, g, b)
  | _, _, _ => none

/-- Squared value of `color_utils.color_distance` (the source returns
`math.sqrt` of this quantity; see the header comment). -/
def color_distance_sq (c1 c2 : List Char) : Option ℚ :=
  match hex_to_rgb c1 with
  | none => none
  | some rgb1 =>
    match hex_to_rgb c2 with
    | none => none
    | some rgb2 =>
      some (2 * ((rgb1.1 : ℚ) / 255 - (rgb2.1 : ℚ) / 255) ^ 2 +
        4 * ((rgb1.2.1 : ℚ) / 255 - (rgb2.2.1 : ℚ) / 255) ^ 2 +
        3 * ((rgb1.2.2 : ℚ) / 255 - (rgb2.2.2 : ℚ) / 255) ^ 2)

/-- The accumulation loop of `find_similar_colors`: per candidate, compute
the distance to the target and keep the pairs within the threshold, in
order; a `ValueError` anywhere in the loop aborts the whole call (`none`).
`maxsq` is the squared `max_distance` threshold. -/
def similarPairs (maxsq : ℚ) (target : List Char) :
    List (List Char) → Option (List (List Char × ℚ))
  | [] => some []
  | c :: rest =>
    match color_distance_sq target c with
    | none => none
    | some d =>
      match similarPairs maxsq target rest with
      | none => none
      | some tail => some (if d ≤ maxsq then (c, d) :: tail else tail)

/-- Stable insertion (after equal keys) used to model Python's stable
`list.sort(key=...)` on (color, distance) pairs. -/
def insertByKey (p : List Char × ℚ) : List (List Char × ℚ) → List (List Char × ℚ)
  | [] => [p]
  | q :: rest => if q.2 ≤ p.2 then q :: insertByKey p rest else p :: q :: rest

/-- Stable sort by distance key (`similar.sort(key=lambda x: x[1])`). -/
def sortByKey (l : List (List Char × ℚ)) : List (List Char × ℚ) :=
  l.foldl (fun acc p => insertByKey p acc) []

/-- `color_utils.find_similar_colors(target_color, colors, max_distance)`:
collect candidates within the threshold, sort by distance, return the hex
strings only.  `maxsq` is the squared `max_distance` (source default 0.5,
squared 1/4). -/
def find_similar_colors (target : List Char) (colors : List (List Char)) (maxsq : ℚ) :
    Option (List (List Char)) :=
  match similarPairs maxsq target colors with
  | none => none
  | some pairs => some ((sortByKey pairs).map Prod.fst)

/-- Strategy 1 of `search_colors`: direct hex substring match. -/
def searchSubstrMatches (query : List Char) (colors : List (List Char)) :
    List (List Char) :=
  colors.filter (fun c => strHas (pyLower c) query)

/-- Strategy 2 of `search_colors`: color-name match against `COLOR_NAMES`
(the table hex is added without checking membership in `colors`). -/
def searchNameMatches (query : List Char) : List (List Char) :=
  (COLOR_NAMES.filter (fun p => strHas (pyLower p.2) query)).map Prod.fst

/-- Strategy 3 of `search_colors`: interpret the query as a color
(`find_similar_colors(f"#{query}", colors)`), attempted for queries of at
least 3 characters; a caught `ValueError` contributes nothing. -/
def searchProximityMatches (query : List Char) (colors : List (List Char)) :
    List (List Char) :=
  if 3 ≤ query.length then
    match find_similar_colors ('#' :: query) colors (1 / 4) with
    | some l => l
    | none => []
  else []

/-- `color_utils.search_colors(query, colors)`.  The Python result is a
`set`; it is modelled as the concatenation of the three strategies' results,
which has the same membership (claims about the search are stated through
membership / emptiness, never through order or multiplicity). -/
def search_colors (q : List Char) (colors : List (List Char)) : List (List Char) :=
  let query := pyStripWs (pyLower q)
  if query = [] then colors
  else
    searchSubstrMatches query colors ++ searchNameMatches query ++
      searchProximityMatches query colors

end ColorUtils

/-- A lowercase hexadecimal digit character (`0-9`, `a-f`). -/
def isLowerHexDigit (c : Char) : Bool :=
  decide ((48 ≤ c.toNat ∧ c.toNat ≤ 57) ∨ (97 ≤ c.toNat ∧ c.toNat ≤ 102))

/-- The shape the generator actually emits: a `'#'` marker followed by
exactly 6 lowercase hexadecimal digits. -/
def isHashLowerHex7 (l : List Char) : Bool :=
  match l with
  | c :: r => decide (c = '#') && decide (r.length = 6) && r.all isLowerHexDigit
  | [] => false

/-- Modelled from the spec: the canonical color form claimed at the core
boundary, a 6-character uppercase hexadecimal string with no leading
marker character. -/
def isCanonUpper6 (l : List Char) : Bool :=
  decide (l.length = 6) && l.all (fun c =>
    decide ((48 ≤ c.toNat ∧ c.toNat ≤ 57) ∨ (65 ≤ c.toNat ∧ c.toNat ≤ 70)))

/-- A valid base color input: after stripping leading markers, exactly six
hexadecimal digit characters. -/
def isValidHex6 (l : List Char) : Bool :=
  decide ((stripHash l).length = 6) && (stripHash l).all (fun c => (hexVal c).isSome)

/-- Circular (mod 1) distance between two hues. -/
def circDist (a b : ℚ) : ℚ := min (pymod (a - b) 1) (pymod (b - a) 1)

/-- Modelled from the spec: the analogous-color list the spec describes,
with offsets ranging from `-(count / 2)` to `+(count / 2)` inclusive
(`count+1` colors when `count` is even). -/
def analogousSpecColors (h s v : ℚ) (count : ℕ) : List (List Char) :=
  (List.range (2 * (count / 2) + 1)).map fun j : ℕ =>
    PaletteGen.hsv_to_hex (pymod (h + ((j : ℤ) - ((count / 2 : ℕ) : ℤ)) * (83 / 1000)) 1) s v

/-! ## Helper lemmas about the Python primitives -/

theorem pyint_of_nonneg {x : ℚ} (h : 0 ≤ x) : pyint x = ⌊x⌋ := by
  rw [pyint, if_pos h]

theorem pymod_one (x : ℚ) : pymod x 1 = Int.fract x := by
  rw [pymod, Int.fract, div_one, one_mul]

theorem pymod_one_nonneg (x : ℚ) : 0 ≤ pymod x 1 := by
  rw [pymod_one]; exact Int.fract_nonneg x

theorem pymod_one_lt_one (x : ℚ) : pymod x 1 < 1 := by
  rw [pymod_one]; exact Int.fract_lt_one x

theorem hexVal_le {c : Char} {d : ℕ} (h : hexVal c = some d) : d ≤ 15 := by
  unfold hexVal at h
  split_ifs at h with h1 h2 h3 <;> injection h with h <;> omega

theorem hexVal_ne_of_none {c : Char} {d : ℕ} (h : hexVal c = some d) (c' : Char)
    (hc : hexVal c' = none) : c ≠ c' := by
  rintro rfl; rw [hc] at h; exact Option.noConfusion h

theorem hexVal_of_isPySpace {c : Char} (h : isPySpace c = true) : hexVal c = none := by
  have h' : ((((c.toNat = 32 ∨ c.toNat = 9) ∨ c.toNat = 10) ∨ c.toNat = 13) ∨
      c.toNat = 11) ∨ c.toNat = 12 := by
    simpa [isPySpace] using h
  unfold hexVal
  rw [if_neg (by omega), if_neg (by omega), if_neg (by omega)]

theorem isPySpace_false_of_hexVal {c : Char} {d : ℕ} (h : hexVal c = some d) :
    isPySpace c = false := by
  cases hsp : isPySpace c
  · rfl
  · rw [hexVal_of_isPySpace hsp] at h; exact Option.noConfusion h

theorem pyStripWs_pair {a b : Char} (ha : isPySpace a = false) (hb : isPySpace b = false) :
    pyStripWs [a, b] = [a, b] := by
  simp [pyStripWs, ha, hb]

theorem pyIntHex_pair {a b : Char} {x y : ℕ} (ha : hexVal a = some x) (hb : hexVal b = some y) :
    pyIntHex [a, b] = some ((16 * x + y : ℕ) : ℤ) := by
  have hsa := isPySpace_false_of_hexVal ha
  have hsb := isPySpace_false_of_hexVal hb
  have hap : a ≠ '+' := hexVal_ne_of_none ha '+' (by decide)
  have ham : a ≠ '-' := hexVal_ne_of_none ha '-' (by decide)
  have hbu : b ≠ '_' := hexVal_ne_of_none hb '_' (by decide)
  have hbx : b ≠ 'x' := hexVal_ne_of_none hb 'x' (by decide)
  have hbX : b ≠ 'X' := hexVal_ne_of_none hb 'X' (by decide)
  have hpre : ¬(a = '0' ∧ (b = 'x' ∨ b = 'X')) := by
    rintro ⟨-, hx | hX⟩
    · exact hbx hx
    · exact hbX hX
  unfold pyIntHex
  rw [pyStripWs_pair hsa hsb]
  simp only [if_neg hap, if_neg ham, if_neg hpre]
  simp only [hexDigitsParse, hexDigitsGo, ha, hb, if_neg hbu]
  push_cast
  ring_nf

theorem pyIntHex_nil : pyIntHex [] = none := rfl

theorem slice2_of_length_le {l : List Char} {i : ℕ} (h : l.length ≤ i) : slice2 l i = [] := by
  simp [slice2, List.drop_eq_nil_of_le h]

theorem list_six {α : Type} {t : List α} (h : t.length = 6) :
    ∃ a b c d e f, t = [a, b, c, d, e, f] := by
  cases t with
  | nil => simp only [List.length_nil] at h; omega
  | cons a t =>
  cases t with
  | nil => simp only [List.length_cons, List.length_nil] at h; omega
  | cons b t =>
  cases t with
  | nil => simp only [List.length_cons, List.length_nil] at h; omega
  | cons c t =>
  cases t with
  | nil => simp only [List.length_cons, List.length_nil] at h; omega
  | cons d t =>
  cases t with
  | nil => simp only [List.length_cons, List.length_nil] at h; omega
  | cons e t =>
  cases t with
  | nil => simp only [List.length_cons, List.length_nil] at h; omega
  | cons f t =>
  cases t with
  | cons g t => simp only [List.length_cons, List.length_nil] at h; omega
  | nil => exact ⟨a, b, c, d, e, f, rfl⟩

theorem toHexDigit_lower {d : ℕ} (h : d < 16) : isLowerHexDigit (toHexDigit d) = true := by
  interval_cases d <;> decide

theorem natToHex_small {n : ℕ} (h : n < 16) : natToHex n = [toHexDigit n] := by
  unfold natToHex natToHexAux
  rw [if_pos h]

theorem natToHex_two {n : ℕ} (h16 : 16 ≤ n) (h255 : n ≤ 255) :
    natToHex n = [toHexDigit (n / 16), toHexDigit (n % 16)] := by
  obtain ⟨m, rfl⟩ : ∃ m, n = m + 1 := ⟨n - 1, by omega⟩
  unfold natToHex natToHexAux
  rw [if_neg (by omega)]
  unfold natToHexAux
  rw [if_pos (by omega)]
  rfl

theorem pyHex02_pair {n : ℤ} (h0 : 0 ≤ n) (h255 : n ≤ 255) :
    ∃ c1 c2, pyHex02 n = [c1, c2] ∧ isLowerHexDigit c1 = true ∧ isLowerHexDigit c2 = true := by
  rw [pyHex02, if_pos h0]
  by_cases hlt : n.toNat < 16
  · rw [natToHex_small hlt]
    exact ⟨'0', toHexDigit n.toNat, by simp, by decide, toHexDigit_lower hlt⟩
  · have h16 : 16 ≤ n.toNat := by omega
    have h2 : n.toNat ≤ 255 := by omega
    rw [natToHex_two h16 h2]
    exact ⟨toHexDigit (n.toNat / 16), toHexDigit (n.toNat % 16), by simp,
      toHexDigit_lower (by omega), toHexDigit_lower (by omega)⟩

namespace PaletteGen

theorem hsvBranch_mem {i : ℤ} {f s v : ℚ} (hf0 : 0 ≤ f) (hf1 : f ≤ 1)
    (hs0 : 0 ≤ s) (hs1 : s ≤ 1) (hv0 : 0 ≤ v) (hv1 : v ≤ 1) :
    (0 ≤ (hsvBranch i f s v).1 ∧ (hsvBranch i f s v).1 ≤ 1) ∧
      (0 ≤ (hsvBranch i f s v).2.1 ∧ (hsvBranch i f s v).2.1 ≤ 1) ∧
      (0 ≤ (hsvBranch i f s v).2.2 ∧ (hsvBranch i f s v).2.2 ≤ 1) := by
  have hp0 : 0 ≤ v * (1 - s) := mul_nonneg hv0 (by linarith)
  have hp1 : v * (1 - s) ≤ 1 := mul_le_one₀ hv1 (by linarith) (by linarith)
  have hsf0 : 0 ≤ s * f := mul_nonneg hs0 hf0
  have hsf1 : s * f ≤ 1 := mul_le_one₀ hs1 hf0 hf1
  have hq0 : 0 ≤ v * (1 - s * f) := mul_nonneg hv0 (by linarith)
  have hq1 : v * (1 - s * f) ≤ 1 := mul_le_one₀ hv1 (by linarith) (by linarith)
  have hg0 : 0 ≤ s * (1 - f) := mul_nonneg hs0 (by linarith)
  have hg1 : s * (1 - f) ≤ 1 := mul_le_one₀ hs1 (by linarith) (by linarith)
  have ht0 : 0 ≤ v * (1 - s * (1 - f)) := mul_nonneg hv0 (by linarith)
  have ht1 : v * (1 - s * (1 - f)) ≤ 1 := mul_le_one₀ hv1 (by linarith) (by linarith)
  unfold hsvBranch
  split_ifs <;> refine ⟨⟨?_, ?_⟩, ⟨?_, ?_⟩, ⟨?_, ?_⟩⟩ <;> dsimp only <;> linarith

theorem hsv_to_rgb_mem {h s v : ℚ} (hh : 0 ≤ h) (hs0 : 0 ≤ s) (hs1 : s ≤ 1)
    (hv0 : 0 ≤ v) (hv1 : v ≤ 1) :
    (0 ≤ (hsv_to_rgb h s v).1 ∧ (hsv_to_rgb h s v).1 ≤ 1) ∧
      (0 ≤ (hsv_to_rgb h s v).2.1 ∧ (hsv_to_rgb h s v).2.1 ≤ 1) ∧
      (0 ≤ (hsv_to_rgb h s v).2.2 ∧ (hsv_to_rgb h s v).2.2 ≤ 1) := by
  unfold hsv_to_rgb
  split_ifs with hz
  · exact ⟨⟨hv0, hv1⟩, ⟨hv0, hv1⟩, ⟨hv0, hv1⟩⟩
  · have h6 : (0:ℚ) ≤ h * 6 := by linarith
    have hfr : h * 6 - (pyint (h * 6) : ℚ) = Int.fract (h * 6) := by
      rw [pyint_of_nonneg h6, Int.fract]
    rw [hfr]
    exact hsvBranch_mem (Int.fract_nonneg _) (le_of_lt (Int.fract_lt_one _)) hs0 hs1 hv0 hv1

theorem pyint_byte_mem {x : ℚ} (h0 : 0 ≤ x) (h1 : x ≤ 1) :
    0 ≤ pyint (x * 255) ∧ pyint (x * 255) ≤ 255 := by
  rw [pyint_of_nonneg (by positivity)]
  constructor
  · exact Int.floor_nonneg.2 (by positivity)
  · calc ⌊x * 255⌋ ≤ ⌊(255 : ℚ)⌋ := Int.floor_le_floor (by nlinarith)
      _ = 255 := by norm_num

theorem hsv_to_hex_wf {h s v : ℚ} (hh : 0 ≤ h) (hs0 : 0 ≤ s) (hs1 : s ≤ 1)
    (hv0 : 0 ≤ v) (hv1 : v ≤ 1) : isHashLowerHex7 (hsv_to_hex h s v) = true := by
  obtain ⟨⟨hr0, hr1⟩, ⟨hg0, hg1⟩, ⟨hb0, hb1⟩⟩ := hsv_to_rgb_mem hh hs0 hs1 hv0 hv1
  obtain ⟨a1, a2, ea, la1, la2⟩ :=
    pyHex02_pair (pyint_byte_mem hr0 hr1).1 (pyint_byte_mem hr0 hr1).2
  obtain ⟨b1, b2, eb, lb1, lb2⟩ :=
    pyHex02_pair (pyint_byte_mem hg0 hg1).1 (pyint_byte_mem hg0 hg1).2
  obtain ⟨c1, c2, ec, lc1, lc2⟩ :=
    pyHex02_pair (pyint_byte_mem hb0 hb1).1 (pyint_byte_mem hb0 hb1).2
  show isHashLowerHex7 ('#' :: (pyHex02 (pyint ((hsv_to_rgb h s v).1 * 255)) ++
    pyHex02 (pyint ((hsv_to_rgb h s v).2.1 * 255)) ++
    pyHex02 (pyint ((hsv_to_rgb h s v).2.2 * 255)))) = true
  rw [ea, eb, ec]
  simp [isHashLowerHex7, la1, la2, lb1, lb2, lc1, lc2]

theorem rgb_to_hsv_ok {r g b : ℚ} (hr0 : 0 ≤ r) (hr1 : r ≤ 1) (hg0 : 0 ≤ g) (hg1 : g ≤ 1)
    (hb0 : 0 ≤ b) (hb1 : b ≤ 1) :
    ∃ h s v, rgb_to_hsv r g b = .ok (h, s, v) ∧
      0 ≤ h ∧ h < 1 ∧ 0 ≤ s ∧ s ≤ 1 ∧ 0 ≤ v ∧ v ≤ 1 := by
  have hmax0 : 0 ≤ max r (max g b) := le_trans hr0 (le_max_left _ _)
  have hmax1 : max r (max g b) ≤ 1 := max_le hr1 (max_le hg1 hb1)
  have hmin0 : 0 ≤ min r (min g b) := le_min hr0 (le_min hg0 hb0)
  have hminmax : min r (min g b) ≤ max r (max g b) :=
    le_trans (min_le_left _ _) (le_max_left _ _)
  unfold rgb_to_hsv
  dsimp only
  split_ifs with he hz hr hg
  · exact ⟨0, 0, max r (max g b), rfl, le_refl 0, by norm_num, le_refl 0, by norm_num,
      hmax0, hmax1⟩
  · exfalso
    apply he
    have h1 : min r (min g b) ≤ 0 := by rw [← hz]; exact hminmax
    rw [le_antisymm h1 hmin0, hz]
  all_goals
    exact ⟨_, _, _, rfl, pymod_one_nonneg _, pymod_one_lt_one _,
      div_nonneg (by linarith) hmax0,
      (div_le_one (lt_of_le_of_ne hmax0 (Ne.symm hz))).2 (by linarith), hmax0, hmax1⟩

theorem isValidHex6_parse {l : List Char} (hvd : isValidHex6 l = true) :
    ∃ h s v, hex_to_hsv l = .ok (h, s, v) ∧
      0 ≤ h ∧ h < 1 ∧ 0 ≤ s ∧ s ≤ 1 ∧ 0 ≤ v ∧ v ≤ 1 := by
  simp only [isValidHex6, Bool.and_eq_true, decide_eq_true_eq, List.all_eq_true] at hvd
  obtain ⟨hlen, hall⟩ := hvd
  obtain ⟨c0, c1, c2, c3, c4, c5, ht⟩ := list_six hlen
  rw [ht] at hall
  obtain ⟨d0, h0⟩ := Option.isSome_iff_exists.1 (hall c0 (by simp))
  obtain ⟨d1, h1⟩ := Option.isSome_iff_exists.1 (hall c1 (by simp))
  obtain ⟨d2, h2⟩ := Option.isSome_iff_exists.1 (hall c2 (by simp))
  obtain ⟨d3, h3⟩ := Option.isSome_iff_exists.1 (hall c3 (by simp))
  obtain ⟨d4, h4⟩ := Option.isSome_iff_exists.1 (hall c4 (by simp))
  obtain ⟨d5, h5⟩ := Option.isSome_iff_exists.1 (hall c5 (by simp))
  have e0 : slice2 (stripHash l) 0 = [c0, c1] := by rw [ht]; rfl
  have e2 : slice2 (stripHash l) 2 = [c2, c3] := by rw [ht]; rfl
  have e4 : slice2 (stripHash l) 4 = [c4, c5] := by rw [ht]; rfl
  have key : ∀ x y : ℕ, x ≤ 15 → y ≤ 15 →
      0 ≤ (((16 * x + y : ℕ) : ℤ) : ℚ) / 255 ∧ (((16 * x + y : ℕ) : ℤ) : ℚ) / 255 ≤ 1 := by
    intro x y hx hy
    constructor
    · positivity
    · rw [div_le_one (by norm_num)]
      have : ((16 * x + y : ℕ) : ℚ) ≤ 255 := by
        have : (16 * x + y : ℕ) ≤ 255 := by omega
        exact_mod_cast this
      push_cast at this ⊢
      linarith
  unfold hex_to_hsv
  dsimp only
  rw [e0, e2, e4, pyIntHex_pair h0 h1, pyIntHex_pair h2 h3, pyIntHex_pair h4 h5]
  exact rgb_to_hsv_ok (key _ _ (hexVal_le h0) (hexVal_le h1)).1
    (key _ _ (hexVal_le h0) (hexVal_le h1)).2
    (key _ _ (hexVal_le h2) (hexVal_le h3)).1 (key _ _ (hexVal_le h2) (hexVal_le h3)).2
    (key _ _ (hexVal_le h4) (hexVal_le h5)).1 (key _ _ (hexVal_le h4) (hexVal_le h5)).2

theorem hsv_to_rgb_pymod (h : ℚ) (k : ℤ) (hh : 0 ≤ h) (s v : ℚ) :
    hsv_to_rgb (pymod (h + (k : ℚ)) 1) s v = hsv_to_rgb h s v := by
  unfold hsv_to_rgb
  by_cases hz : s = 0
  · rw [if_pos hz, if_pos hz]
  · rw [if_neg hz, if_neg hz]
    have hh' : 0 ≤ pymod (h + (k : ℚ)) 1 := pymod_one_nonneg _
    have hm : pymod (h + (k : ℚ)) 1 = h + ((k - ⌊h + (k : ℚ)⌋ : ℤ) : ℚ) := by
      rw [pymod_one, Int.fract]
      push_cast
      ring
    rw [hm] at hh' ⊢
    have h6 : (h + ((k - ⌊h + (k : ℚ)⌋ : ℤ) : ℚ)) * 6 =
        h * 6 + ((6 * (k - ⌊h + (k : ℚ)⌋) : ℤ) : ℚ) := by push_cast; ring
    have e1 : pyint ((h + ((k - ⌊h + (k : ℚ)⌋ : ℤ) : ℚ)) * 6) =
        ⌊h * 6⌋ + 6 * (k - ⌊h + (k : ℚ)⌋) := by
      rw [pyint_of_nonneg (by nlinarith), h6, Int.floor_add_int]
    have e2 : pyint (h * 6) = ⌊h * 6⌋ := pyint_of_nonneg (by linarith)
    have ei : pyint ((h + ((k - ⌊h + (k : ℚ)⌋ : ℤ) : ℚ)) * 6) % 6 = pyint (h * 6) % 6 := by
      rw [e1, e2, Int.add_mul_emod_self_left]
    have ef : (h + ((k - ⌊h + (k : ℚ)⌋ : ℤ) : ℚ)) * 6 -
        (pyint ((h + ((k - ⌊h + (k : ℚ)⌋ : ℤ) : ℚ)) * 6) : ℚ) =
        h * 6 - (pyint (h * 6) : ℚ) := by
      rw [e1, e2, h6]
      push_cast
      ring
    rw [ei, ef]

theorem fract_sub_fract (x y : ℚ) :
    Int.fract (Int.fract x - Int.fract y) = Int.fract (x - y) := by
  have e : Int.fract x - Int.fract y = x - y - ((⌊x⌋ - ⌊y⌋ : ℤ) : ℚ) := by
    rw [Int.fract, Int.fract]
    push_cast
    ring
  rw [e, Int.fract_sub_int]

theorem circDist_pymod_right (h a : ℚ) : circDist h (pymod (h + a) 1) = circDist 0 a := by
  unfold circDist
  rw [pymod_one (h + a), pymod_one, pymod_one, pymod_one, pymod_one]
  have e1 : h - Int.fract (h + a) = -a + ((⌊h + a⌋ : ℤ) : ℚ) := by
    rw [Int.fract]; ring
  have e2 : Int.fract (h + a) - h = a - ((⌊h + a⌋ : ℤ) : ℚ) := by
    rw [Int.fract]; ring
  rw [e1, e2, Int.fract_add_int, Int.fract_sub_int]
  rw [show (0 : ℚ) - a = -a from by ring, show a - (0 : ℚ) = a from by ring]

theorem circDist_pymod_pair (h a b : ℚ) :
    circDist (pymod (h + a) 1) (pymod (h + b) 1) = circDist 0 (a - b) := by
  unfold circDist
  rw [pymod_one (h + a), pymod_one (h + b), pymod_one, pymod_one, pymod_one, pymod_one]
  rw [fract_sub_fract, fract_sub_fract]
  rw [show h + a - (h + b) = a - b from by ring, show h + b - (h + a) = b - a from by ring,
    show (0 : ℚ) - (a - b) = b - a from by ring, show a - b - (0 : ℚ) = a - b from by ring]
  exact min_comm _ _

/-- C5 (amended): hue wraparound holds for every nonnegative hue: for
`0 ≤ h`, `s, v ∈ [0, 1]` and every integer `k`,
`FromHSV((h + k) mod 1.0, s, v) = FromHSV(h, s, v)`.  (As stated over every
hue it fails: Python's `int()` truncates toward zero, so negative hues are
not wrapped — see the counterexample.) -/
theorem claim5_theorem (h s v : ℚ) (k : ℤ) (hh : 0 ≤ h) (hs0 : 0 ≤ s) (hs1 : s ≤ 1)
    (hv0 : 0 ≤ v) (hv1 : v ≤ 1) :
    hsv_to_hex (pymod (h + (k : ℚ)) 1) s v = hsv_to_hex h s v := by
  unfold hsv_to_hex
  rw [hsv_to_rgb_pymod h k hh]

/-- C5 witness: the theorem applied at `h = 5/4`, `k = -1`. -/
theorem claim5_witness :
    hsv_to_hex (pymod ((5 / 4 : ℚ) + ((-1 : ℤ) : ℚ)) 1) 1 1 = hsv_to_hex (5 / 4 : ℚ) 1 1 :=
  claim5_theorem (5 / 4) 1 1 (-1) (by norm_num) (by norm_num) (by norm_num) (by norm_num)
    (by norm_num)

/-- C5 counterexample: at the (negative) hue `h = -1/4` with `k = 1` the two
sides differ — `FromHSV(3/4, 1, 1) = "#7f00ff"` while
`FromHSV(-1/4, 1, 1) = "#ff0017e"` (an out-of-range channel). -/
theorem claim5_counterexample :
    hsv_to_hex (pymod ((-(1 / 4) : ℚ) + ((1 : ℤ) : ℚ)) 1) 1 1 ≠
      hsv_to_hex (-(1 / 4) : ℚ) 1 1 := by
  with_unfolding_all decide

/-- C7 (amended): for `h ∈ [0, 1)` and `s, v ∈ [0, 1]`, `FromHSV` computes
each 8-bit channel by TRUNCATING `channel * 255` toward zero (equivalently,
flooring the nonnegative value), yielding an integer in `[0, 255]` — not by
rounding to the nearest integer. -/
theorem claim7_theorem (h s v : ℚ) (hh0 : 0 ≤ h) (hh1 : h < 1) (hs0 : 0 ≤ s) (hs1 : s ≤ 1)
    (hv0 : 0 ≤ v) (hv1 : v ≤ 1) :
    hsv_to_hex h s v = '#' :: (pyHex02 (pyint ((hsv_to_rgb h s v).1 * 255)) ++
        pyHex02 (pyint ((hsv_to_rgb h s v).2.1 * 255)) ++
        pyHex02 (pyint ((hsv_to_rgb h s v).2.2 * 255))) ∧
      pyint ((hsv_to_rgb h s v).1 * 255) = ⌊(hsv_to_rgb h s v).1 * 255⌋ ∧
      pyint ((hsv_to_rgb h s v).2.1 * 255) = ⌊(hsv_to_rgb h s v).2.1 * 255⌋ ∧
      pyint ((hsv_to_rgb h s v).2.2 * 255) = ⌊(hsv_to_rgb h s v).2.2 * 255⌋ ∧
      (0 ≤ pyint ((hsv_to_rgb h s v).1 * 255) ∧ pyint ((hsv_to_rgb h s v).1 * 255) ≤ 255) ∧
      (0 ≤ pyint ((hsv_to_rgb h s v).2.1 * 255) ∧ pyint ((hsv_to_rgb h s v).2.1 * 255) ≤ 255) ∧
      (0 ≤ pyint ((hsv_to_rgb h s v).2.2 * 255) ∧ pyint ((hsv_to_rgb h s v).2.2 * 255) ≤ 255) := by
  obtain ⟨⟨hr0, hr1⟩, ⟨hg0, hg1⟩, ⟨hb0, hb1⟩⟩ := hsv_to_rgb_mem hh0 hs0 hs1 hv0 hv1
  exact ⟨rfl, pyint_of_nonneg (by positivity), pyint_of_nonneg (by positivity),
    pyint_of_nonneg (by positivity), pyint_byte_mem hr0 hr1, pyint_byte_mem hg0 hg1,
    pyint_byte_mem hb0 hb1⟩

/-- C7 witness: the theorem applied at `(h, s, v) = (0, 1/2, 1)`. -/
theorem claim7_witness :
    hsv_to_hex 0 (1 / 2) 1 = '#' :: (pyHex02 (pyint ((hsv_to_rgb 0 (1 / 2) 1).1 * 255)) ++
        pyHex02 (pyint ((hsv_to_rgb 0 (1 / 2) 1).2.1 * 255)) ++
        pyHex02 (pyint ((hsv_to_rgb 0 (1 / 2) 1).2.2 * 255))) ∧
      pyint ((hsv_to_rgb 0 (1 / 2) 1).1 * 255) = ⌊(hsv_to_rgb 0 (1 / 2) 1).1 * 255⌋ ∧
      pyint ((hsv_to_rgb 0 (1 / 2) 1).2.1 * 255) = ⌊(hsv_to_rgb 0 (1 / 2) 1).2.1 * 255⌋ ∧
      pyint ((hsv_to_rgb 0 (1 / 2) 1).2.2 * 255) = ⌊(hsv_to_rgb 0 (1 / 2) 1).2.2 * 255⌋ ∧
      (0 ≤ pyint ((hsv_to_rgb 0 (1 / 2) 1).1 * 255) ∧
        pyint ((hsv_to_rgb 0 (1 / 2) 1).1 * 255) ≤ 255) ∧
      (0 ≤ pyint ((hsv_to_rgb 0 (1 / 2) 1).2.1 * 255) ∧
        pyint ((hsv_to_rgb 0 (1 / 2) 1).2.1 * 255) ≤ 255) ∧
      (0 ≤ pyint ((hsv_to_rgb 0 (1 / 2) 1).2.2 * 255) ∧
        pyint ((hsv_to_rgb 0 (1 / 2) 1).2.2 * 255) ≤ 255) :=
  claim7_theorem 0 (1 / 2) 1 (by norm_num) (by norm_num) (by norm_num) (by norm_num)
    (by norm_num) (by norm_num)

/-- C7 counterexample: at `(h, s, v) = (0, 0, 1/4)` each channel is `1/4`,
`channel * 255 = 63.75`, and the code emits byte 63 (`"#3f3f3f"`) where
rounding to the nearest integer would give 64; moreover a negative hue is
not wrapped into `[0, 1)` before conversion. -/
theorem claim7_counterexample :
    hsv_to_hex 0 0 (1 / 4 : ℚ) = "#3f3f3f".data ∧
      pyint ((hsv_to_rgb 0 0 (1 / 4 : ℚ)).1 * 255) = 63 ∧
      round ((hsv_to_rgb 0 0 (1 / 4 : ℚ)).1 * 255) = 64 ∧
      hsv_to_hex (-(1 / 4) : ℚ) 1 1 ≠ hsv_to_hex (3 / 4 : ℚ) 1 1 := by
  with_unfolding_all decide

/-- C4 (amended): `ToHSV` raises `ValueError` (the `InvalidColorFormat`
failure) whenever any of the three 2-character channel slices of the input
(after stripping leading markers) fails to parse as a base-16 integer — in
particular for `"zz0000"` and for every input of length at most 4 — and it
never substitutes a default color.  (As stated over every string that is not
exactly 6 hex digits the claim fails: longer inputs such as `"ff000000"`
parse successfully, the characters past position 6 being ignored.) -/
theorem claim4_theorem (s : List Char)
    (hbad : pyIntHex (slice2 (stripHash s) 0) = none ∨
      pyIntHex (slice2 (stripHash s) 2) = none ∨
      pyIntHex (slice2 (stripHash s) 4) = none) :
    hex_to_hsv s = .error .valueError := by
  rcases h0 : pyIntHex (slice2 (stripHash s) 0) with - | r
  · simp [hex_to_hsv, h0]
  rcases h2 : pyIntHex (slice2 (stripHash s) 2) with - | g
  · simp [hex_to_hsv, h0, h2]
  rcases h4 : pyIntHex (slice2 (stripHash s) 4) with - | b
  · simp [hex_to_hsv, h0, h2, h4]
  · exfalso
    rw [h0, h2, h4] at hbad
    rcases hbad with h | h | h <;> exact Option.noConfusion h

/-- C4 witness: `ToHSV("zz0000")` raises `ValueError`. -/
theorem claim4_witness : hex_to_hsv ("zz0000".data) = Except.error PyError.valueError :=
  claim4_theorem _ (Or.inl (by with_unfolding_all decide))

/-- C4 counterexample: `"ff000000"` is not 6 hexadecimal digits (it is 8),
yet `ToHSV` succeeds and returns pure red rather than failing. -/
theorem claim4_counterexample :
    hex_to_hsv ("ff000000".data) = Except.ok (0, 1, 1) ∧
      (stripHash ("ff000000".data)).length = 8 := by
  with_unfolding_all decide

/-- C6 (amended): for every parseable base and every count `n`,
`Analogous(base, n)` returns EXACTLY `n` colors, the `i`-th (0-based) having
hue `(h + (i - n/2) * 0.083) mod 1.0` with saturation and value held from
the base — so the offsets run from `-(n/2)` to `n - 1 - n/2` inclusive, not
to `+(n/2)`, and an even count yields `n` colors, not `n + 1`. -/
theorem claim6_theorem (base : List Char) (h s v : ℚ) (n : ℕ)
    (hp : hex_to_hsv base = .ok (h, s, v)) :
    ∃ l, generate_analogous_colors base n = .ok l ∧ l.length = n ∧
      ∀ i : ℕ, i < n → l[i]? =
        some (hsv_to_hex (pymod (h + ((i : ℤ) - ((n / 2 : ℕ) : ℤ)) * (83 / 1000)) 1) s v) := by
  refine ⟨(List.range n).map (fun i : ℕ =>
    hsv_to_hex (pymod (h + ((i : ℤ) - ((n / 2 : ℕ) : ℤ)) * (83 / 1000)) 1) s v), ?_, ?_, ?_⟩
  · simp [generate_analogous_colors, hp]
  · rw [List.length_map, List.length_range]
  · intro i hi
    rw [List.getElem?_map, List.getElem?_range hi]
    rfl

/-- C6 witness: the theorem applied at base `"ff0000"` with `n = 5`. -/
theorem claim6_witness :
    ∃ l, generate_analogous_colors ("ff0000".data) 5 = .ok l ∧ l.length = 5 ∧
      ∀ i : ℕ, i < 5 → l[i]? =
        some (hsv_to_hex (pymod ((0 : ℚ) + ((i : ℤ) - ((5 / 2 : ℕ) : ℤ)) * (83 / 1000)) 1) 1 1) :=
  claim6_theorem ("ff0000".data) 0 1 1 5 (by with_unfolding_all decide)

/-- C6 counterexample: at base `"ff0000"` with count 4 the code returns 4
colors, while the claimed offset range `[-(4/2), +(4/2)]` describes 5
colors; the two lists differ. -/
theorem claim6_counterexample :
    generate_analogous_colors ("ff0000".data) 4 ≠ Except.ok (analogousSpecColors 0 1 1 4) ∧
      Except.map List.length (generate_analogous_colors ("ff0000".data) 4) = Except.ok 4 ∧
      (analogousSpecColors 0 1 1 4).length = 5 := by
  with_unfolding_all decide

/-- C8 (amended): for every parseable base, `Triadic` returns the base plus
the serializations at hues `(h + 0.333) mod 1` and `(h + 0.666) mod 1`; the
pairwise circular hue separations are exactly `0.333`, `0.333` and `0.334` —
each within `1/1000` of `1/3`, but NOT within floating-point tolerance of
exactly `1/3` (the deviation is `1/3000`, respectively `1/1500`). -/
theorem claim8_theorem (base : List Char) (h s v : ℚ)
    (hp : hex_to_hsv base = .ok (h, s, v)) :
    generate_triadic_colors base = .ok [base, hsv_to_hex (pymod (h + 333 / 1000) 1) s v,
        hsv_to_hex (pymod (h + 666 / 1000) 1) s v] ∧
      circDist h (pymod (h + 333 / 1000) 1) = 333 / 1000 ∧
      circDist (pymod (h + 333 / 1000) 1) (pymod (h + 666 / 1000) 1) = 333 / 1000 ∧
      circDist h (pymod (h + 666 / 1000) 1) = 334 / 1000 ∧
      |(333 / 1000 : ℚ) - 1 / 3| ≤ 1 / 1000 ∧ |(334 / 1000 : ℚ) - 1 / 3| ≤ 1 / 1000 := by
  refine ⟨by simp [generate_triadic_colors, hp], ?_, ?_, ?_, by rw [abs_le]; constructor <;>
    norm_num, by rw [abs_le]; constructor <;> norm_num⟩
  · rw [circDist_pymod_right]
    with_unfolding_all decide
  · rw [circDist_pymod_pair]
    with_unfolding_all decide
  · rw [circDist_pymod_right]
    with_unfolding_all decide

/-- C8 witness: the theorem applied at base `"ff0000"` (hue 0). -/
theorem claim8_witness :
    generate_triadic_colors ("ff0000".data) = .ok ["ff0000".data,
        hsv_to_hex (pymod ((0 : ℚ) + 333 / 1000) 1) 1 1,
        hsv_to_hex (pymod ((0 : ℚ) + 666 / 1000) 1) 1 1] ∧
      circDist 0 (pymod ((0 : ℚ) + 333 / 1000) 1) = 333 / 1000 ∧
      circDist (pymod ((0 : ℚ) + 333 / 1000) 1) (pymod ((0 : ℚ) + 666 / 1000) 1) = 333 / 1000 ∧
      circDist 0 (pymod ((0 : ℚ) + 666 / 1000) 1) = 334 / 1000 ∧
      |(333 / 1000 : ℚ) - 1 / 3| ≤ 1 / 1000 ∧ |(334 / 1000 : ℚ) - 1 / 3| ≤ 1 / 1000 :=
  claim8_theorem ("ff0000".data) 0 1 1 (by with_unfolding_all decide)

/-- C8 counterexample: at base `"ff0000"` the separation between the first
two triadic hues is exactly `0.333`, which is NOT within any floating-point
tolerance (here `1e-9`) of `1/3`: the deviation is `1/3000`. -/
theorem claim8_counterexample :
    hex_to_hsv ("ff0000".data) = Except.ok (0, 1, 1) ∧
      circDist 0 (pymod ((0 : ℚ) + 333 / 1000) 1) = 333 / 1000 ∧
      ¬(|circDist 0 (pymod ((0 : ℚ) + 333 / 1000) 1) - 1 / 3| ≤ 1 / 1000000000) := by
  with_unfolding_all decide

/-- C1 (amended): every string the core serializes from HSV — the output of
`FromHSV` on in-range inputs, every element of `Analogous`, and every
non-base element of `Complementary`, `Triadic`, `SplitComplementary` and
`Tetradic` for a valid 6-hex-digit base — is `'#'` followed by exactly 6
LOWERCASE hexadecimal digits: a 7-character marker-prefixed lowercase
string, not the 6-character uppercase marker-free canonical form the claim
asserts. -/
theorem claim1_theorem (base : List Char) (hb : isValidHex6 base = true) :
    ∃ h s v, hex_to_hsv base = .ok (h, s, v) ∧
      (∀ h' s' v' : ℚ, 0 ≤ h' → 0 ≤ s' → s' ≤ 1 → 0 ≤ v' → v' ≤ 1 →
        isHashLowerHex7 (hsv_to_hex h' s' v') = true) ∧
      (∀ n l, generate_analogous_colors base n = .ok l →
        ∀ c ∈ l, isHashLowerHex7 c = true) ∧
      (∀ l, generate_complementary_colors base = .ok l →
        ∀ c ∈ l.tail, isHashLowerHex7 c = true) ∧
      (∀ l, generate_triadic_colors base = .ok l →
        ∀ c ∈ l.tail, isHashLowerHex7 c = true) ∧
      (∀ l, generate_split_complementary_colors base = .ok l →
        ∀ c ∈ l.tail, isHashLowerHex7 c = true) ∧
      (∀ l, generate_tetradic_colors base = .ok l →
        ∀ c ∈ l.tail, isHashLowerHex7 c = true) := by
  obtain ⟨h, s, v, hp, hh0, hh1, hs0, hs1, hv0, hv1⟩ := isValidHex6_parse hb
  refine ⟨h, s, v, hp, fun h' s' v' a b c d e => hsv_to_hex_wf a b c d e, ?_, ?_, ?_, ?_, ?_⟩
  · intro n l hl c hc
    simp only [generate_analogous_colors, hp] at hl
    cases hl
    obtain ⟨i, -, rfl⟩ := List.mem_map.1 hc
    exact hsv_to_hex_wf (pymod_one_nonneg _) hs0 hs1 hv0 hv1
  · intro l hl c hc
    simp only [generate_complementary_colors, hp] at hl
    cases hl
    simp only [List.tail_cons] at hc
    fin_cases hc <;> exact hsv_to_hex_wf (pymod_one_nonneg _) hs0 hs1 hv0 hv1
  · intro l hl c hc
    simp only [generate_triadic_colors, hp] at hl
    cases hl
    simp only [List.tail_cons] at hc
    fin_cases hc <;> exact hsv_to_hex_wf (pymod_one_nonneg _) hs0 hs1 hv0 hv1
  · intro l hl c hc
    simp only [generate_split_complementary_colors, hp] at hl
    cases hl
    simp only [List.tail_cons] at hc
    fin_cases hc <;> exact hsv_to_hex_wf (pymod_one_nonneg _) hs0 hs1 hv0 hv1
  · intro l hl c hc
    simp only [generate_tetradic_colors, hp] at hl
    cases hl
    simp only [List.tail_cons] at hc
    fin_cases hc <;> exact hsv_to_hex_wf (pymod_one_nonneg _) hs0 hs1 hv0 hv1

/-- C1 witness: the theorem applied at the valid base `"ff0000"`. -/
theorem claim1_witness :
    ∃ h s v, hex_to_hsv ("ff0000".data) = .ok (h, s, v) ∧
      (∀ h' s' v' : ℚ, 0 ≤ h' → 0 ≤ s' → s' ≤ 1 → 0 ≤ v' → v' ≤ 1 →
        isHashLowerHex7 (hsv_to_hex h' s' v') = true) ∧
      (∀ n l, generate_analogous_colors ("ff0000".data) n = .ok l →
        ∀ c ∈ l, isHashLowerHex7 c = true) ∧
      (∀ l, generate_complementary_colors ("ff0000".data) = .ok l →
        ∀ c ∈ l.tail, isHashLowerHex7 c = true) ∧
      (∀ l, generate_triadic_colors ("ff0000".data) = .ok l →
        ∀ c ∈ l.tail, isHashLowerHex7 c = true) ∧
      (∀ l, generate_split_complementary_colors ("ff0000".data) = .ok l →
        ∀ c ∈ l.tail, isHashLowerHex7 c = true) ∧
      (∀ l, generate_tetradic_colors ("ff0000".data) = .ok l →
        ∀ c ∈ l.tail, isHashLowerHex7 c = true) :=
  claim1_theorem ("ff0000".data) (by with_unfolding_all decide)

/-- C1 counterexample: for the valid base `"ff0000"` the derived
complementary color is emitted as `"#00ffff"` — 7 characters, a leading
marker, lowercase — which is not a canonical 6-character uppercase
marker-free string; neither is the direct `FromHSV(0, 1, 1) = "#ff0000"`. -/
theorem claim1_counterexample :
    generate_complementary_colors ("ff0000".data) =
        Except.ok ["ff0000".data, "#00ffff".data] ∧
      isCanonUpper6 ("#00ffff".data) = false ∧
      isCanonUpper6 (hsv_to_hex 0 1 1) = false := by
  with_unfolding_all decide

/-- C10: for every parseable base string, `Complementary`, `Triadic`,
`SplitComplementary` and `Tetradic` return the caller's base string itself,
unchanged, as the first element — marker and letter case included — while
every other element is freshly serialized from HSV via `FromHSV`. -/
theorem claim10_theorem (base : List Char) (h s v : ℚ)
    (hp : hex_to_hsv base = .ok (h, s, v)) :
    generate_complementary_colors base =
        .ok [base, hsv_to_hex (pymod (h + 1 / 2) 1) s v] ∧
      generate_triadic_colors base = .ok [base, hsv_to_hex (pymod (h + 333 / 1000) 1) s v,
        hsv_to_hex (pymod (h + 666 / 1000) 1) s v] ∧
      generate_split_complementary_colors base =
        .ok [base, hsv_to_hex (pymod (h + 417 / 1000) 1) s v,
          hsv_to_hex (pymod (h + 583 / 1000) 1) s v] ∧
      generate_tetradic_colors base = .ok [base, hsv_to_hex (pymod (h + 1 / 4) 1) s v,
        hsv_to_hex (pymod (h + 1 / 2) 1) s v, hsv_to_hex (pymod (h + 3 / 4) 1) s v] := by
  refine ⟨?_, ?_, ?_, ?_⟩ <;>
    simp [generate_complementary_colors, generate_triadic_colors,
      generate_split_complementary_colors, generate_tetradic_colors, hp]

/-- C10 witness: the theorem applied at the base `"#FF0000"`, which carries
a marker and uppercase letters; the returned heads preserve it byte for
byte while the derived elements are lowercase serializations. -/
theorem claim10_witness :
    generate_complementary_colors ("#FF0000".data) =
        .ok ["#FF0000".data, hsv_to_hex (pymod ((0 : ℚ) + 1 / 2) 1) 1 1] ∧
      generate_triadic_colors ("#FF0000".data) =
        .ok ["#FF0000".data, hsv_to_hex (pymod ((0 : ℚ) + 333 / 1000) 1) 1 1,
          hsv_to_hex (pymod ((0 : ℚ) + 666 / 1000) 1) 1 1] ∧
      generate_split_complementary_colors ("#FF0000".data) =
        .ok ["#FF0000".data, hsv_to_hex (pymod ((0 : ℚ) + 417 / 1000) 1) 1 1,
          hsv_to_hex (pymod ((0 : ℚ) + 583 / 1000) 1) 1 1] ∧
      generate_tetradic_colors ("#FF0000".data) =
        .ok ["#FF0000".data, hsv_to_hex (pymod ((0 : ℚ) + 1 / 4) 1) 1 1,
          hsv_to_hex (pymod ((0 : ℚ) + 1 / 2) 1) 1 1,
          hsv_to_hex (pymod ((0 : ℚ) + 3 / 4) 1) 1 1] :=
  claim10_theorem ("#FF0000".data) 0 1 1 (by with_unfolding_all decide)

end PaletteGen

theorem strBegins_iff {needle hay : List Char} : strBegins needle hay = true ↔ needle <+: hay := by
  induction needle generalizing hay with
  | nil => simp [strBegins]
  | cons a as ih =>
    cases hay with
    | nil => simp [strBegins]
    | cons b bs => simp [strBegins, ih, List.cons_prefix_cons]

theorem strHas_iff {hay needle : List Char} : strHas hay needle = true ↔ needle <:+: hay := by
  induction hay with
  | nil => simp [strHas, strBegins_iff]
  | cons c t ih => simp [strHas, strBegins_iff, ih, List.infix_cons_iff]

theorem pyStripWs_within (l : List Char) : pyStripWs l <:+: l := by
  unfold pyStripWs
  have h1 : l.dropWhile isPySpace <:+ l := List.dropWhile_suffix _
  have h2 : (l.dropWhile isPySpace).reverse.dropWhile isPySpace <:+
      (l.dropWhile isPySpace).reverse := List.dropWhile_suffix _
  have h3 : ((l.dropWhile isPySpace).reverse.dropWhile isPySpace).reverse <+:
      l.dropWhile isPySpace := by
    rw [← List.reverse_suffix]
    simpa using h2
  have h4 := List.IsPrefix.isInfix h3
  have h5 := List.IsSuffix.isInfix h1
  exact h4.trans h5

namespace ColorUtils

theorem search_colors_eq {q : List Char} (colors : List (List Char))
    (hq : pyStripWs (pyLower q) ≠ []) :
    search_colors q colors = searchSubstrMatches (pyStripWs (pyLower q)) colors ++
      searchNameMatches (pyStripWs (pyLower q)) ++
      searchProximityMatches (pyStripWs (pyLower q)) colors := by
  unfold search_colors
  dsimp only
  rw [if_neg hq]

/-- C2: for every query that is non-empty after lowercasing and stripping,
every candidate list, and every `(hex, name)` pair of the static
`COLOR_NAMES` table whose lowercased name contains the lowercased query as a
substring, `Search` includes the table hex value in its result — with no
check that it belongs to the candidate list. -/
theorem claim2_theorem (q : List Char) (cs : List (List Char)) (hx nm : List Char)
    (hq : pyStripWs (pyLower q) ≠ [])
    (hmem : (hx, nm) ∈ COLOR_NAMES)
    (hsub : strHas (pyLower nm) (pyLower q) = true) :
    hx ∈ search_colors q cs := by
  rw [search_colors_eq cs hq]
  have hinf : pyStripWs (pyLower q) <:+: pyLower nm :=
    (pyStripWs_within (pyLower q)).trans (strHas_iff.1 hsub)
  have hstr : strHas (pyLower nm) (pyStripWs (pyLower q)) = true := strHas_iff.2 hinf
  apply List.mem_append.2
  left
  apply List.mem_append.2
  right
  exact List.mem_map.2 ⟨(hx, nm), List.mem_filter.2 ⟨hmem, hstr⟩, rfl⟩

/-- C2 witness: `Search("red", ["FF0000", "00FF00"])` includes `"FF0000"`
through the name-alias `red`. -/
theorem claim2_witness :
    ("FF0000".data) ∈ search_colors ("red".data) ["FF0000".data, "00FF00".data] :=
  claim2_theorem ("red".data) ["FF0000".data, "00FF00".data] ("FF0000".data) ("red".data)
    (by with_unfolding_all decide) (by with_unfolding_all decide)
    (by with_unfolding_all decide)

theorem color_distance_sq_none_right {t c : List Char} (hc : hex_to_rgb c = none) :
    color_distance_sq t c = none := by
  cases ht : hex_to_rgb t <;> simp [color_distance_sq, ht, hc]

theorem similarPairs_none_of_bad {maxsq : ℚ} {t c : List Char} {cs : List (List Char)}
    (hmem : c ∈ cs) (hc : hex_to_rgb c = none) :
    similarPairs maxsq t cs = none := by
  induction cs with
  | nil => cases hmem
  | cons d rest ih =>
    rcases List.mem_cons.1 hmem with rfl | hmem'
    · unfold similarPairs
      rw [color_distance_sq_none_right hc]
    · unfold similarPairs
      rw [ih hmem']
      cases hd : color_distance_sq t d <;> rfl

theorem searchProx_empty_of_bad {query : List Char} {cs : List (List Char)}
    (hbad : ∃ c ∈ cs, hex_to_rgb c = none) :
    searchProximityMatches query cs = [] := by
  obtain ⟨c, hmem, hc⟩ := hbad
  unfold searchProximityMatches
  split_ifs with hlen
  · simp [find_similar_colors, similarPairs_none_of_bad hmem hc]
  · rfl

/-- C3 (amended): when any single candidate in the list is malformed, the
`ValueError` raised during the proximity strategy's distance loop is caught
at the whole-strategy level: no error propagates to the caller, but the
ENTIRE proximity strategy contributes nothing — the proximity matches of
the remaining well-formed candidates are dropped too, and only the
substring and name-alias strategies produce results.  (As stated — only the
single malformed comparison fails and other proximity matches survive — the
claim is refuted by the counterexample.) -/
theorem claim3_theorem (q : List Char) (cs : List (List Char))
    (hq : pyStripWs (pyLower q) ≠ [])
    (hbad : ∃ c ∈ cs, hex_to_rgb c = none) :
    search_colors q cs = searchSubstrMatches (pyStripWs (pyLower q)) cs ++
      searchNameMatches (pyStripWs (pyLower q)) := by
  rw [search_colors_eq cs hq, searchProx_empty_of_bad hbad, List.append_nil]

/-- C3 witness: with candidates `["FF0001", "zz"]` ("zz" malformed) and
query `"ff0000"`, the search returns exactly the substring and name-alias
matches (here none), without raising. -/
theorem claim3_witness :
    search_colors ("ff0000".data) ["FF0001".data, "zz".data] =
      searchSubstrMatches (pyStripWs (pyLower ("ff0000".data)))
        ["FF0001".data, "zz".data] ++
      searchNameMatches (pyStripWs (pyLower ("ff0000".data))) :=
  claim3_theorem ("ff0000".data) ["FF0001".data, "zz".data]
    (by with_unfolding_all decide)
    ⟨"zz".data, by with_unfolding_all decide, by with_unfolding_all decide⟩

/-- C3 counterexample: `"FF0001"` is a proximity match of `"ff0000"` when it
is the only candidate, but adding the single malformed candidate `"zz"`
empties the whole result — the well-formed candidate's proximity match is
NOT returned, contradicting the claim. -/
theorem claim3_counterexample :
    search_colors ("ff0000".data) ["FF0001".data] = ["FF0001".data] ∧
      search_colors ("ff0000".data) ["FF0001".data, "zz".data] = [] ∧
      ("FF0001".data) ∉ search_colors ("ff0000".data) ["FF0001".data, "zz".data] := by
  with_unfolding_all decide

theorem hex_to_rgb_none_of_short {l : List Char} (h : (stripHash l).length ≤ 4) :
    hex_to_rgb l = none := by
  have h4 : pyIntHex (slice2 (stripHash l) 4) = none := by
    rw [slice2_of_length_le (le_trans h (by omega)), pyIntHex_nil]
  rcases h0 : pyIntHex (slice2 (stripHash l) 0) with - | r
  · simp [hex_to_rgb, h0]
  rcases h2 : pyIntHex (slice2 (stripHash l) 2) with - | g
  · simp [hex_to_rgb, h0, h2]
  · simp [hex_to_rgb, h0, h2, h4]

/-- C9: for every query whose processed form (lowercased, stripped) has
length exactly 3 or 4, and every candidate list, the proximity strategy of
`Search` contributes nothing: parsing the `'#'`-prefixed query always fails
(the blue-channel slice is empty), the failure is caught, and the result is
exactly the union of the substring and name-alias strategies — even though
the proximity strategy is attempted for processed queries of at least 3
characters. -/
theorem claim9_theorem (q : List Char) (cs : List (List Char))
    (hlen : (pyStripWs (pyLower q)).length = 3 ∨ (pyStripWs (pyLower q)).length = 4) :
    hex_to_rgb ('#' :: pyStripWs (pyLower q)) = none ∧
      search_colors q cs = searchSubstrMatches (pyStripWs (pyLower q)) cs ++
        searchNameMatches (pyStripWs (pyLower q)) := by
  have hq : pyStripWs (pyLower q) ≠ [] := by
    intro he
    rw [he] at hlen
    rcases hlen with h | h <;> simp at h
  have hshort : (stripHash ('#' :: pyStripWs (pyLower q))).length ≤ 4 := by
    have e : stripHash ('#' :: pyStripWs (pyLower q)) =
        stripHash (pyStripWs (pyLower q)) := by
      simp [stripHash]
    rw [e]
    have hle := (List.dropWhile_suffix (fun c => decide (c = '#'))
      (l := pyStripWs (pyLower q))).length_le
    rcases hlen with h | h <;> unfold stripHash <;> omega
  have hnone := hex_to_rgb_none_of_short hshort
  refine ⟨hnone, ?_⟩
  rw [search_colors_eq cs hq]
  have hprox : searchProximityMatches (pyStripWs (pyLower q)) cs = [] := by
    unfold searchProximityMatches
    rw [if_pos (by rcases hlen with h | h <;> omega)]
    cases cs with
    | nil => rfl
    | cons c rest =>
      have hdist : color_distance_sq ('#' :: pyStripWs (pyLower q)) c = none := by
        unfold color_distance_sq
        rw [hnone]
      unfold find_similar_colors similarPairs
      rw [hdist]
  rw [hprox, List.append_nil]

/-- C9 witness: the theorem applied at the 3-character query `"f00"` with
candidate list `["FF0000"]`. -/
theorem claim9_witness :
    hex_to_rgb ('#' :: pyStripWs (pyLower ("f00".data))) = none ∧
      search_colors ("f00".data) ["FF0000".data] =
        searchSubstrMatches (pyStripWs (pyLower ("f00".data))) ["FF0000".data] ++
          searchNameMatches (pyStripWs (pyLower ("f00".data))) :=
  claim9_theorem ("f00".data) ["FF0000".data] (Or.inl (by with_unfolding_all decide))

end ColorUtils

end Pyreto
